import Mathlib

/-!
Verification development for the GitHub-backed durability layer of the
studocs repository (files `src/gitDataSync.js` and `src/githubStorage.js`).

The JavaScript source is shallowly embedded as executable Lean functions.
Remote (GitHub REST) calls are the environment boundary of the program:

* For the database-sync module (`gitDataSync.js`) the remote is modelled as
  an `Oracle`: for every REST endpoint a total function from the call index
  (how many times that endpoint has been called so far) to its response.
  Since the embedded code is deterministic given the responses, every real
  execution corresponds to exactly one oracle, so quantifying over oracles
  quantifies over all remote behaviours.  A `Net` value threads the
  per-endpoint call counters and a chronological log of the calls made.

* For the PDF blob-store module (`githubStorage.js`) the remote is modelled
  as an explicit repository state `Repo` implementing the documented GitHub
  contents/blob semantics: path-addressed objects guarded by a version token
  (the blob sha) and content-addressed immutable blobs.  The content hash is
  modelled by an injective executable encoding (`shaOf`), standing in for
  SHA-1, which the code only ever treats as an opaque deterministic token.

Bytes are `List Nat` with every element `< 256`.  JavaScript binary strings
are modelled by their code-unit sequences.  Base64 is modelled in full
(encoder and decoder over the standard alphabet) because the source round
trips every payload through `Buffer.toString('base64')` /
`Buffer.from(_, 'base64')`.
-/

/-! ## Bytes and base64 -/

abbrev Bytes := List Nat

/-- A byte list is valid when every entry is an actual byte. -/
def validBytes (bs : Bytes) : Prop := ∀ b ∈ bs, b < 256

instance : DecidablePred validBytes := fun bs =>
  inferInstanceAs (Decidable (∀ b ∈ bs, b < 256))

/-- Standard base64 alphabet, sextet value to character. -/
def b64char (n : Nat) : Char :=
  if n < 26 then Char.ofNat (65 + n)
  else if n < 52 then Char.ofNat (97 + (n - 26))
  else if n < 62 then Char.ofNat (48 + (n - 52))
  else if n = 62 then '+'
  else '/'

/-- Standard base64 alphabet, character to sextet value (0 for foreign chars,
matching the lenient decoders which never see foreign chars on our inputs). -/
def b64val (c : Char) : Nat :=
  if 65 ≤ c.toNat ∧ c.toNat ≤ 90 then c.toNat - 65
  else if 97 ≤ c.toNat ∧ c.toNat ≤ 122 then c.toNat - 97 + 26
  else if 48 ≤ c.toNat ∧ c.toNat ≤ 57 then c.toNat - 48 + 52
  else if c = '+' then 62
  else if c = '/' then 63
  else 0

/-- Base64 encoder (`Buffer.toString('base64')` and the base64 bodies GitHub
produces): three bytes become four alphabet characters, with `=` padding. -/
def b64encode : Bytes → List Char
  | [] => []
  | [a] => [b64char (a / 4), b64char (a % 4 * 16), '=', '=']
  | [a, b] => [b64char (a / 4), b64char (a % 4 * 16 + b / 16), b64char (b % 16 * 4), '=']
  | a :: b :: c :: rest =>
      b64char (a / 4) :: b64char (a % 4 * 16 + b / 16) ::
      b64char (b % 16 * 4 + c / 64) :: b64char (c % 64) :: b64encode rest

/-- Base64 decoder (`Buffer.from(_, 'base64')`): groups of four characters
become three bytes; `=` padding and ragged tails produce the shorter forms. -/
def b64decode : List Char → Bytes
  | s0 :: s1 :: s2 :: s3 :: rest =>
      if s2 = '=' then [b64val s0 * 4 + b64val s1 / 16]
      else if s3 = '=' then
        [b64val s0 * 4 + b64val s1 / 16, b64val s1 % 16 * 16 + b64val s2 / 4]
      else
        (b64val s0 * 4 + b64val s1 / 16) ::
        (b64val s1 % 16 * 16 + b64val s2 / 4) ::
        (b64val s2 % 4 * 64 + b64val s3) :: b64decode rest
  | [s0, s1] => [b64val s0 * 4 + b64val s1 / 16]
  | [s0, s1, s2] => [b64val s0 * 4 + b64val s1 / 16, b64val s1 % 16 * 16 + b64val s2 / 4]
  | _ => []

/-! ## Errors and remote responses (gitDataSync.js model) -/

/-- An error thrown by the GitHub client.  `status` is the HTTP status when
present (octokit `RequestError.status`; `none` models a plain `Error` with no
`status` field, whose JavaScript `e.status` is `undefined`).  `isConfig`
marks the errors produced by `configError` in `githubClient.js`. -/
structure GhErr where
  status : Option Nat := none
  msg : String := ""
  isConfig : Bool := false
deriving DecidableEq

/-- JavaScript truthiness of `e.status` (`undefined` and `0` are falsy). -/
def statusTruthy : Option Nat → Bool
  | none => false
  | some st => st != 0

/-- Model of `configError` from `githubClient.js`: wraps a message into an
error flagged `isConfigError`, with no HTTP status. -/
def configError (m : String) : GhErr := { msg := m, isConfig := true }

/-- The 422 message fragment that `putFileContents` looks for. -/
def shaPat : String := "\"sha\" wasn\x27t supplied"

/-- Model of `String.prototype.startsWith` on char lists. -/
def charsStartWith : List Char → List Char → Bool
  | [], _ => true
  | _ :: _, [] => false
  | p :: ps, c :: cs => p == c && charsStartWith ps cs

/-- Model of `String.prototype.includes` on char lists. -/
def charsContain (pat : List Char) : List Char → Bool
  | [] => charsStartWith pat []
  | c :: cs => charsStartWith pat (c :: cs) || charsContain pat cs

/-- Model of `e.message.includes('"sha" wasn\x27t supplied')`. -/
def msgHasShaNotSupplied (m : String) : Bool :=
  charsContain shaPat.toList m.toList

/-- Response of `octokit.repos.getContent` for a path: a directory listing, or
a file whose `sha` field may be `null` (`data.sha || null` in the source). -/
inductive ContentResp where
  | dir : ContentResp
  | file : Option String → ContentResp
deriving DecidableEq

/-- Body of a raw-blob GET as `gitDataSync.js`/`githubStorage.js` receive it:
a Buffer, a binary string (modelled by its code units), a base64-wrapped
object, or something else (the `throw new Error('Unable to fetch ...')`
branch). -/
inductive BlobBody where
  | buffer : Bytes → BlobBody
  | binstr : List Nat → BlobBody
  | b64 : List Char → BlobBody
  | malformed : BlobBody
deriving DecidableEq

/-- One remote call, as recorded in the chronological call log.  Payloads are
not recorded; `putContents` records the version token supplied (`params.sha`,
`none` when the parameter was omitted). -/
inductive CallEv where
  | getContent : CallEv
  | putContents : Option String → CallEv
  | blobGet : CallEv
  | createBlob : CallEv
  | getRef : CallEv
  | getCommit : CallEv
  | createTree : CallEv
  | createCommit : CallEv
  | updateRef : CallEv
deriving DecidableEq

/-- The remote, as one total response function per REST endpoint, indexed by
how many times that endpoint has been called.  Every concrete execution of
the deterministic source corresponds to exactly one oracle. -/
structure Oracle where
  getContent : Nat → Except GhErr ContentResp
  putContents : Nat → Except GhErr (Option String)
  blobGet : Nat → Except GhErr BlobBody
  createBlob : Nat → Except GhErr String
  getRef : Nat → Except GhErr String
  getCommit : Nat → Except GhErr String
  createTree : Nat → Except GhErr String
  createCommit : Nat → Except GhErr String
  updateRef : Nat → Except GhErr Unit

/-- Per-endpoint call counters. -/
structure Counters where
  getContent : Nat := 0
  putContents : Nat := 0
  blobGet : Nat := 0
  createBlob : Nat := 0
  getRef : Nat := 0
  getCommit : Nat := 0
  createTree : Nat := 0
  createCommit : Nat := 0
  updateRef : Nat := 0
deriving DecidableEq

/-- Network-side state threaded through the embedded functions: the call
counters and the chronological call log. -/
structure Net where
  ctr : Counters := {}
  log : List CallEv := []
deriving DecidableEq

/-- The empty network state (no calls made yet). -/
def net0 : Net := {}

/-- Module-level mutable state of `gitDataSync.js`: `lastKnownSha` and
`dirty` (the debounce timer is modelled separately for the timing claims). -/
structure SyncSt where
  lastKnownSha : Option String
  dirty : Bool
deriving DecidableEq

def callGetContent (o : Oracle) (n : Net) : Except GhErr ContentResp × Net :=
  (o.getContent n.ctr.getContent,
   ⟨{ n.ctr with getContent := n.ctr.getContent + 1 }, n.log ++ [CallEv.getContent]⟩)

def callPutContents (o : Oracle) (contentBase64 : String) (sha : Option String) (n : Net) :
    Except GhErr (Option String) × Net :=
  (o.putContents n.ctr.putContents,
   ⟨{ n.ctr with putContents := n.ctr.putContents + 1 }, n.log ++ [CallEv.putContents sha]⟩)

def callBlobGet (o : Oracle) (n : Net) : Except GhErr BlobBody × Net :=
  (o.blobGet n.ctr.blobGet,
   ⟨{ n.ctr with blobGet := n.ctr.blobGet + 1 }, n.log ++ [CallEv.blobGet]⟩)

def callCreateBlob (o : Oracle) (contentBase64 : String) (n : Net) :
    Except GhErr String × Net :=
  (o.createBlob n.ctr.createBlob,
   ⟨{ n.ctr with createBlob := n.ctr.createBlob + 1 }, n.log ++ [CallEv.createBlob]⟩)

def callGetRef (o : Oracle) (n : Net) : Except GhErr String × Net :=
  (o.getRef n.ctr.getRef,
   ⟨{ n.ctr with getRef := n.ctr.getRef + 1 }, n.log ++ [CallEv.getRef]⟩)

def callGetCommit (o : Oracle) (n : Net) : Except GhErr String × Net :=
  (o.getCommit n.ctr.getCommit,
   ⟨{ n.ctr with getCommit := n.ctr.getCommit + 1 }, n.log ++ [CallEv.getCommit]⟩)

def callCreateTree (o : Oracle) (n : Net) : Except GhErr String × Net :=
  (o.createTree n.ctr.createTree,
   ⟨{ n.ctr with createTree := n.ctr.createTree + 1 }, n.log ++ [CallEv.createTree]⟩)

def callCreateCommit (o : Oracle) (n : Net) : Except GhErr String × Net :=
  (o.createCommit n.ctr.createCommit,
   ⟨{ n.ctr with createCommit := n.ctr.createCommit + 1 }, n.log ++ [CallEv.createCommit]⟩)

def callUpdateRef (o : Oracle) (n : Net) : Except GhErr Unit × Net :=
  (o.updateRef n.ctr.updateRef,
   ⟨{ n.ctr with updateRef := n.ctr.updateRef + 1 }, n.log ++ [CallEv.updateRef]⟩)

/-! ## gitDataSync.js embedded functions -/

/-- `SIZE_WARN_LIMIT`: 90 MB, `gitDataSync.js` line 41. -/
def SIZE_WARN_LIMIT : Nat := 90 * 1024 * 1024

/-- The commit message used by `syncNow`. -/
def baseMessage : String := "Sync data/app.db"

/-- Embedding of `getRemoteSha` (`gitDataSync.js` lines 45-59): fetch the
content metadata; a directory answer throws a status-less error (rethrown,
since `undefined === 404` is false); a 404 yields `null`; other errors are
rethrown; otherwise the file sha (`data.sha || null`) is returned. -/
def getRemoteSha (o : Oracle) (n : Net) : Except GhErr (Option String) × Net :=
  match callGetContent o n with
  | (Except.ok ContentResp.dir, n1) =>
      (Except.error { msg := "Expected file, got directory: data/app.db" }, n1)
  | (Except.ok (ContentResp.file sh), n1) => (Except.ok sh, n1)
  | (Except.error e, n1) =>
      if e.status = some 404 then (Except.ok none, n1) else (Except.error e, n1)

/-- Embedding of `putFileContents` (`gitDataSync.js` lines 84-111): try the
contents-API write with the supplied token; on a 422 whose message includes
`"sha" wasn\x27t supplied`, re-fetch the remote sha and, when one exists, retry
the same write once with it; otherwise (and on every other error) rethrow. -/
def putFileContents (o : Oracle) (contentBase64 : String) (message : String)
    (sha : Option String) (n : Net) : Except GhErr (Option String) × Net :=
  match callPutContents o contentBase64 sha n with
  | (Except.ok d, n1) => (Except.ok d, n1)
  | (Except.error e, n1) =>
      if e.status = some 422 && msgHasShaNotSupplied e.msg then
        match getRemoteSha o n1 with
        | (Except.error g, n2) => (Except.error g, n2)
        | (Except.ok (some remoteSha), n2) =>
            (match callPutContents o contentBase64 (some remoteSha) n2 with
             | (Except.ok d, n3) => (Except.ok d, n3)
             | (Except.error e2, n3) => (Except.error e2, n3))
        | (Except.ok none, n2) => (Except.error e, n2)
      else (Except.error e, n1)

/-- Embedding of `commitRawBlob` (`gitDataSync.js` lines 118-167): base64 the
buffer, create a blob, read the branch head and its commit, create a tree,
create a commit, advance the ref; any failing step aborts the sequence. -/
def commitRawBlob (o : Oracle) (buffer : Bytes) (message : String) (n : Net) :
    Except GhErr (String × String) × Net :=
  let contentBase64 := String.mk (b64encode buffer)
  match callCreateBlob o contentBase64 n with
  | (Except.error e, n1) => (Except.error e, n1)
  | (Except.ok blobSha, n1) =>
    match callGetRef o n1 with
    | (Except.error e, n2) => (Except.error e, n2)
    | (Except.ok _baseCommitSha, n2) =>
      match callGetCommit o n2 with
      | (Except.error e, n3) => (Except.error e, n3)
      | (Except.ok _baseTreeSha, n3) =>
        match callCreateTree o n3 with
        | (Except.error e, n4) => (Except.error e, n4)
        | (Except.ok _treeSha, n4) =>
          match callCreateCommit o n4 with
          | (Except.error e, n5) => (Except.error e, n5)
          | (Except.ok newCommitSha, n5) =>
            match callUpdateRef o n5 with
            | (Except.error e, n6) => (Except.error e, n6)
            | (Except.ok _, n6) => (Except.ok (newCommitSha, blobSha), n6)

/-- Embedding of the error transform in `syncNow`'s final catch
(`gitDataSync.js` lines 311-318): 404 becomes a config error, 422 becomes a
plain error with an explanatory message, everything else is rethrown as is. -/
def finalErrTransform (e : GhErr) : GhErr :=
  if e.status = some 404 then
    configError "Remote write failed with 404. Ensure repository and branch exist and token has proper scopes."
  else if e.status = some 422 then
    { msg := "Remote write failed with 422 (invalid request): " ++ e.msg }
  else e

/-- Embedding of `syncNow`'s final contents-API retry (`gitDataSync.js` lines
302-319): re-fetch the remote sha, write with `remoteSha || lastKnownSha`,
and on success record the token and clear `dirty`; failures (including a
failing re-fetch) go through `finalErrTransform`. -/
def syncFinalRetry (o : Oracle) (buf : Bytes) (s : SyncSt) (n : Net) :
    Except GhErr Unit × SyncSt × Net :=
  let contentBase64 := String.mk (b64encode buf)
  match getRemoteSha o n with
  | (Except.error e2, n1) => (Except.error (finalErrTransform e2), s, n1)
  | (Except.ok remoteSha, n1) =>
    match putFileContents o contentBase64 baseMessage
        (match remoteSha with | some r => some r | none => s.lastKnownSha) n1 with
    | (Except.ok d, n2) => (Except.ok (), ⟨d, false⟩, n2)
    | (Except.error fe, n2) => (Except.error (finalErrTransform fe), s, n2)

/-- Embedding of `syncNow`'s blob+tree+commit path (`gitDataSync.js` lines
291-320): attempt `commitRawBlob`; on success re-fetch the sha (still inside
the `try`), record it and clear `dirty`; if either fails, fall into the final
contents-API retry. -/
def syncFallback (o : Oracle) (buf : Bytes) (s : SyncSt) (n : Net) :
    Except GhErr Unit × SyncSt × Net :=
  match commitRawBlob o buf baseMessage n with
  | (Except.ok _, n1) =>
    match getRemoteSha o n1 with
    | (Except.ok sh, n2) => (Except.ok (), ⟨sh, false⟩, n2)
    | (Except.error _, n2) => syncFinalRetry o buf s n2
  | (Except.error _, n1) => syncFinalRetry o buf s n1

/-- Embedding of `syncNow` (`gitDataSync.js` lines 255-321).  `file` is the
local database file (`none` when `fs.existsSync` is false).  Under the size
limit the contents API is tried first (re-fetching the token when it is unset
and the flush is not forced); on failure, and for large files, the
blob+tree+commit fallback runs. -/
def syncNow (o : Oracle) (force : Bool) (file : Option Bytes) (s : SyncSt) (n : Net) :
    Except GhErr Unit × SyncSt × Net :=
  if !s.dirty && !force then (Except.ok (), s, n)
  else
    match file with
    | none => (Except.ok (), s, n)
    | some buf =>
      if buf.length ≤ SIZE_WARN_LIMIT then
        let contentBase64 := String.mk (b64encode buf)
        match (if s.lastKnownSha.isNone && !force then getRemoteSha o n
               else (Except.ok s.lastKnownSha, n)) with
        | (Except.error e, n1) => (Except.error e, s, n1)
        | (Except.ok sh, n1) =>
          match putFileContents o contentBase64 baseMessage sh n1 with
          | (Except.ok d, n2) => (Except.ok (), ⟨d, false⟩, n2)
          | (Except.error _, n2) => syncFallback o buf ⟨sh, s.dirty⟩ n2
      else syncFallback o buf s n

/-- Embedding of `fetchRemoteDbBuffer` (`gitDataSync.js` lines 61-78): get the
sha (absent file gives `null`), fetch the raw blob, and normalize the body;
an unrecognized body shape throws a status-less error. -/
def fetchRemoteDbBuffer (o : Oracle) (n : Net) :
    Except GhErr (Option (Bytes × String)) × Net :=
  match getRemoteSha o n with
  | (Except.error e, n1) => (Except.error e, n1)
  | (Except.ok none, n1) => (Except.ok none, n1)
  | (Except.ok (some sha), n1) =>
    match callBlobGet o n1 with
    | (Except.error e, n2) => (Except.error e, n2)
    | (Except.ok (BlobBody.buffer b), n2) => (Except.ok (some (b, sha)), n2)
    | (Except.ok (BlobBody.binstr cs), n2) =>
        (Except.ok (some (cs.map (fun c => c % 256), sha)), n2)
    | (Except.ok (BlobBody.b64 cs), n2) => (Except.ok (some (b64decode cs, sha)), n2)
    | (Except.ok BlobBody.malformed, n2) =>
        (Except.error { msg := "Unable to fetch DB blob content" }, n2)

/-- Embedding of the bootstrap arm of `initDataSync` (`gitDataSync.js` lines
194-212): ensure a local file exists (create empty), push it with
`syncNow(true)`, and turn a 404 from that push into a config error. -/
def initBootstrap (o : Oracle) (localFile : Option Bytes) (s : SyncSt) (n : Net) :
    Except GhErr Unit × Option Bytes × SyncSt × Net :=
  let file1 : Option Bytes := match localFile with | none => some [] | some f => some f
  match syncNow o true file1 s n with
  | (Except.ok _, s2, n2) => (Except.ok (), file1, s2, n2)
  | (Except.error e, s2, n2) =>
    if e.status = some 404 then
      (Except.error (configError "Remote write failed with 404 while initializing file. Ensure repo/branch/token are correct."), file1, s2, n2)
    else (Except.error e, file1, s2, n2)

/-- Embedding of `initDataSync`'s hydrate-or-bootstrap body (`gitDataSync.js`
lines 177-212; the periodic timer and signal handlers are modelled separately
for the timing claims).  The fetch is tried; an error with a truthy status
other than 404 is rethrown, any other error is swallowed and treated as
absence.  A present remote overwrites the local file and records the token;
otherwise the bootstrap arm runs. -/
def initDataSync (o : Oracle) (localFile : Option Bytes) (s : SyncSt) (n : Net) :
    Except GhErr Unit × Option Bytes × SyncSt × Net :=
  match fetchRemoteDbBuffer o n with
  | (Except.error e, n1) =>
    if statusTruthy e.status && !(e.status = some 404 : Bool) then
      (Except.error e, localFile, s, n1)
    else initBootstrap o localFile s n1
  | (Except.ok (some (buf, sha)), n1) =>
      (Except.ok (), some buf, ⟨some sha, s.dirty⟩, n1)
  | (Except.ok none, n1) => initBootstrap o localFile s n1

/-! ## githubStorage.js: remote repository state model -/

/-- Hex-style rendering of one byte with two alphabet characters. -/
def hexOfBytes : Bytes → List Char
  | [] => []
  | b :: r => b64char (b / 16) :: b64char (b % 16) :: hexOfBytes r

/-- The content identifier of a blob.  GitHub derives it as the SHA-1 of the
blob header plus content; the code only relies on it being an opaque token
derived deterministically (and, collision-freeness assumed, injectively) from
the bytes, which this executable injective encoding models. -/
def shaOf (bs : Bytes) : String := String.mk (hexOfBytes bs)

/-- Inverse of `hexOfBytes`, used to prove `shaOf` injective. -/
def unhexChars : List Char → Bytes
  | c :: d :: r => (b64val c * 16 + b64val d) :: unhexChars r
  | _ => []

/-- Remote repository state at the fixed branch: path-addressed file objects
(each path maps to the sha of its current blob) and the content-addressed
blob store.  Blobs are immutable: file deletion never removes a blob. -/
structure Repo where
  files : List (String × String) := []
  blobs : List (String × Bytes) := []
deriving DecidableEq

/-- Well-formedness: every stored blob is filed under the token derived from
its bytes, and holds actual bytes. -/
def Repo.WF (r : Repo) : Prop :=
  ∀ p ∈ r.blobs, p.1 = shaOf p.2 ∧ validBytes p.2

/-- Add a blob to the content-addressed store; re-creating an existing id is
not an error and changes nothing (blobs are immutable). -/
def insertBlob (sha : String) (bs : Bytes) (blobs : List (String × Bytes)) :
    List (String × Bytes) :=
  match blobs.lookup sha with
  | some _ => blobs
  | none => (sha, bs) :: blobs

/-- GitHub `PUT /contents` semantics (`createOrUpdateFileContents`): decode the
base64 payload, then create when the path is absent and no sha was supplied;
updating an existing path requires the supplied sha to equal the current one
(`422 "sha" wasn\x27t supplied` when omitted, `409` on mismatch); supplying a
sha for an absent path is rejected.  Returns the new content sha. -/
def ghPutContents (r : Repo) (path : String) (contentBase64 : List Char)
    (sha : Option String) : Except GhErr (String × Repo) :=
  let bytes := b64decode contentBase64
  let newSha := shaOf bytes
  let written : Repo :=
    ⟨(path, newSha) :: r.files.filter (fun p => !(p.1 == path)),
     insertBlob newSha bytes r.blobs⟩
  match r.files.lookup path with
  | none =>
    match sha with
    | none => Except.ok (newSha, written)
    | some _ => Except.error { status := some 422, msg := "sha does not match" }
  | some cur =>
    match sha with
    | none => Except.error { status := some 422, msg := "Invalid request. " ++ shaPat ++ "." }
    | some s => if s = cur then Except.ok (newSha, written)
                else Except.error { status := some 409, msg := "is at " ++ cur ++ " but expected " ++ s }

/-- GitHub `DELETE /contents` semantics (`deleteFile`): the path must exist and
the supplied sha must match; the path mapping is removed, blobs stay. -/
def ghDeleteFile (r : Repo) (path : String) (sha : String) : Except GhErr Repo :=
  match r.files.lookup path with
  | none => Except.error { status := some 404, msg := "Not Found" }
  | some cur =>
    if sha = cur then Except.ok ⟨r.files.filter (fun p => !(p.1 == path)), r.blobs⟩
    else Except.error { status := some 409, msg := "is at " ++ cur ++ " but expected " ++ sha }

/-- The response encoding the remote happens to use for a raw-blob GET. -/
inductive EncChoice where
  | raw : EncChoice
  | binstr : EncChoice
  | b64obj : EncChoice
deriving DecidableEq

/-- GitHub raw-blob GET semantics: look the blob up by content id and present
its bytes in one of the encodings the client accepts; 404 when absent. -/
def ghGetBlob (r : Repo) (enc : EncChoice) (sha : String) : Except GhErr BlobBody :=
  match r.blobs.lookup sha with
  | none => Except.error { status := some 404, msg := "Not Found" }
  | some bs =>
    match enc with
    | EncChoice.raw => Except.ok (BlobBody.buffer bs)
    | EncChoice.binstr => Except.ok (BlobBody.binstr bs)
    | EncChoice.b64obj => Except.ok (BlobBody.b64 (b64encode bs))

/-- GitHub `GET /contents` for a path: the current content sha, or 404 when
the path holds no object (the `NotFound` sentinel of the spec). -/
def ghGetContentPath (r : Repo) (path : String) : Except GhErr String :=
  match r.files.lookup path with
  | none => Except.error { status := some 404, msg := "Not Found" }
  | some cur => Except.ok cur

/-! ## githubStorage.js embedded functions -/

/-- A blob-store remote call, in chronological order. -/
inductive StoreEv where
  | evBlobGet : String → StoreEv
  | evPut : String → StoreEv
  | evDelete : String → StoreEv
deriving DecidableEq

/-- Allowed characters of `sanitizeName`: the JavaScript class `[a-zA-Z0-9._-]`. -/
def isNameAllowed (c : Char) : Bool :=
  c.isAlphanum || c == '.' || c == '_' || c == '-'

/-- Collapse every run of consecutive dashes to a single dash (the second
`replace` of `sanitizeName`, whose regex is a global dash-run match). -/
def collapseDashes : List Char → List Char
  | [] => []
  | [c] => [c]
  | c :: d :: rest =>
      if c = '-' && d = '-' then collapseDashes (d :: rest)
      else c :: collapseDashes (d :: rest)

/-- Strip one leading and one trailing dash (the third `replace` of
`sanitizeName`, anchored dash at start or end, global). -/
def trimDashes (cs : List Char) : List Char :=
  let a := match cs with
    | '-' :: r => r
    | l => l
  match a.getLast? with
  | some '-' => a.dropLast
  | _ => a

/-- Embedding of `sanitizeName` (`githubStorage.js` lines 5-7).  The first
regex replaces each maximal run of disallowed characters by one dash; since
the second regex then collapses every dash run, replacing the disallowed
characters one by one (as done here) composes to the same function. -/
def sanitizeName (name : String) : String :=
  let step1 := name.toList.map (fun c => if isNameAllowed c then c else '-')
  let step2 := collapseDashes step1
  String.mk (trimDashes step2)

/-- Model of `path.posix.join`: empty segments are skipped, the rest are
joined with `/` (no segment produced by the callers needs normalization). -/
def posixJoin (segs : List String) : String :=
  String.intercalate "/" (segs.filter (fun s => !(s == "")))

/-- The logical path `uploadPdf` computes (`githubStorage.js` lines 10-11):
sanitize the name, falling back to `document-<id>.pdf` when the name is
missing or sanitizes to the empty string (JavaScript `||` on strings treats
the empty string as missing), and join under `pdfs/<id>/`. -/
def uploadPath (originalName : String) (id : String) : String :=
  let fallbackName := "document-" ++ id ++ ".pdf"
  let sanitized := sanitizeName (if originalName = "" then fallbackName else originalName)
  let safeName := if sanitized = "" then fallbackName else sanitized
  posixJoin ["pdfs", id, safeName]

/-- Embedding of `uploadPdf` (`githubStorage.js` lines 9-29): build the
logical path and create the file via the contents API without supplying a
sha.  Returns `(path, content sha)`. -/
def uploadPdf (r : Repo) (log : List StoreEv) (buffer : Bytes)
    (originalName : String) (id : String) :
    Except GhErr (String × String) × Repo × List StoreEv :=
  let relPath := uploadPath originalName id
  let contentBase64 := b64encode buffer
  match ghPutContents r relPath contentBase64 none with
  | Except.error e => (Except.error e, r, log ++ [StoreEv.evPut relPath])
  | Except.ok (newSha, r1) =>
      (Except.ok (relPath, newSha), r1, log ++ [StoreEv.evPut relPath])

/-- Embedding of `fetchBlobBySha` (`githubStorage.js` lines 31-44): raw-blob
GET, then normalize a Buffer, a binary string (code units masked to bytes),
or a base64-wrapped object; anything else throws a status-less error. -/
def fetchBlobBySha (r : Repo) (log : List StoreEv) (enc : EncChoice) (sha : String) :
    Except GhErr Bytes × Repo × List StoreEv :=
  let log1 := log ++ [StoreEv.evBlobGet sha]
  match ghGetBlob r enc sha with
  | Except.error e => (Except.error e, r, log1)
  | Except.ok (BlobBody.buffer b) => (Except.ok b, r, log1)
  | Except.ok (BlobBody.binstr cs) => (Except.ok (cs.map (fun c => c % 256)), r, log1)
  | Except.ok (BlobBody.b64 cs) => (Except.ok (b64decode cs), r, log1)
  | Except.ok BlobBody.malformed =>
      (Except.error { msg := "Unable to fetch blob content" }, r, log1)

/-- Embedding of `moveToBannedFolder` (`githubStorage.js` lines 46-70): fetch
the bytes by content id, write them (base64) to
`banned-pdfs/<docId>/<filename>` where `<filename>` is the last `/`-segment
of the old path, then delete the old path with the same sha; each failing
step aborts the sequence.  Returns the new path. -/
def moveToBannedFolder (r : Repo) (log : List StoreEv) (enc : EncChoice)
    (currentPath : String) (sha : String) (docId : String) :
    Except GhErr String × Repo × List StoreEv :=
  match fetchBlobBySha r log enc sha with
  | (Except.error e, r1, l1) => (Except.error e, r1, l1)
  | (Except.ok rawBuf, r1, l1) =>
    let filename := (currentPath.splitOn "/").getLastD ""
    let newPath := "banned-pdfs/" ++ docId ++ "/" ++ filename
    let l2 := l1 ++ [StoreEv.evPut newPath]
    match ghPutContents r1 newPath (b64encode rawBuf) none with
    | Except.error e => (Except.error e, r1, l2)
    | Except.ok (_, r2) =>
      let l3 := l2 ++ [StoreEv.evDelete currentPath]
      match ghDeleteFile r2 currentPath sha with
      | Except.error e => (Except.error e, r2, l3)
      | Except.ok r3 => (Except.ok newPath, r3, l3)

/-! ## Debounce timer model (markDataDirty) -/

/-- Debounce-side state of `gitDataSync.js`: the `dirty` flag, whether the
module-level `timer` handle is set, and how many debounce flushes have been
scheduled in total (each `setTimeout` in `markDataDirty` schedules one). -/
structure MdState where
  dirty : Bool := false
  timerSet : Bool := false
  scheduled : Nat := 0
deriving DecidableEq

/-- Embedding of `markDataDirty` (`gitDataSync.js` lines 240-247): set
`dirty`; if a timer is already pending, return; otherwise schedule one
debounce flush and record the timer handle. -/
def markDataDirty (st : MdState) : MdState :=
  let st1 := { st with dirty := true }
  if st1.timerSet then st1
  else { st1 with timerSet := true, scheduled := st1.scheduled + 1 }

/-! ## Interleaving model for an in-flight flush (claim C4)

The JavaScript scheduler runs code atomically between `await` suspension
points.  The machine below models the small-file success path of `syncNow`
cut at its awaits, together with `markDataDirty` and the local database file:

* `flushTimerFire` (lines 243-246 and 255-263): the debounce timer fires,
  the callback clears the `timer` handle and `syncNow` runs its synchronous
  head: return at once when not dirty, otherwise read the local file into the
  in-flight buffer and suspend on the contents-API write.
* `appMutate bs` (callers of `markDataDirty`): the application rewrites the
  local database and calls `markDataDirty`.
* `flushWriteOk` (lines 278-281): the awaited write succeeds at the remote
  with the buffered (old) content, and the continuation runs:
  `lastKnownSha` updated, `dirty = false`.
-/

/-- Combined state for the interleaving model: the debounce state, the local
database content, the remote object content, and the buffer captured by an
in-flight flush (if one is between its read and its write completion). -/
structure DbSim where
  md : MdState := {}
  localContent : Bytes := []
  remoteContent : Option Bytes := none
  inflight : Option Bytes := none
deriving DecidableEq

/-- Events of the interleaving model. -/
inductive DbEv where
  | appMutate : Bytes → DbEv
  | flushTimerFire : DbEv
  | flushWriteOk : DbEv
deriving DecidableEq

/-- One atomic scheduler segment. -/
def dbStep (st : DbSim) : DbEv → DbSim
  | DbEv.appMutate bs => { st with localContent := bs, md := markDataDirty st.md }
  | DbEv.flushTimerFire =>
      if st.md.timerSet then
        if st.md.dirty then
          { st with md := { st.md with timerSet := false },
                    inflight := some st.localContent }
        else { st with md := { st.md with timerSet := false } }
      else st
  | DbEv.flushWriteOk =>
      match st.inflight with
      | none => st
      | some buf =>
          { st with remoteContent := some buf,
                    md := { st.md with dirty := false },
                    inflight := none }

/-- Run a trace of scheduler segments. -/
def dbRun (st : DbSim) (evs : List DbEv) : DbSim := evs.foldl dbStep st

/-! ## Concrete oracles used by witnesses and counterexamples -/

/-- An oracle whose every response is an HTTP 500 failure. -/
def oracleDown : Oracle :=
  ⟨fun _ => Except.error ⟨some 500, "boom", false⟩,
   fun _ => Except.error ⟨some 500, "boom", false⟩,
   fun _ => Except.error ⟨some 500, "boom", false⟩,
   fun _ => Except.error ⟨some 500, "boom", false⟩,
   fun _ => Except.error ⟨some 500, "boom", false⟩,
   fun _ => Except.error ⟨some 500, "boom", false⟩,
   fun _ => Except.error ⟨some 500, "boom", false⟩,
   fun _ => Except.error ⟨some 500, "boom", false⟩,
   fun _ => Except.error ⟨some 500, "boom", false⟩⟩

/-- An oracle that rejects every contents-API write with the 422
missing-version-token message while the blob+commit path succeeds. -/
def oracleConflict : Oracle :=
  ⟨fun _ => Except.ok (ContentResp.file (some "r1")),
   fun _ => Except.error ⟨some 422, "Invalid request. " ++ shaPat ++ ".", false⟩,
   fun _ => Except.ok BlobBody.malformed,
   fun _ => Except.ok "b1",
   fun _ => Except.ok "c0",
   fun _ => Except.ok "t0",
   fun _ => Except.ok "t1",
   fun _ => Except.ok "c1",
   fun _ => Except.ok ()⟩

/-- An oracle whose blob-create fails with HTTP 500 while the contents API
succeeds; drives the large-file fallback into the single-call path. -/
def oracleBlobDown : Oracle :=
  ⟨fun _ => Except.ok (ContentResp.file (some "r1")),
   fun _ => Except.ok (some "s2"),
   fun _ => Except.ok BlobBody.malformed,
   fun _ => Except.error ⟨some 500, "boom", false⟩,
   fun _ => Except.ok "c0",
   fun _ => Except.ok "t0",
   fun _ => Except.ok "t1",
   fun _ => Except.ok "c1",
   fun _ => Except.ok ()⟩

/-- An oracle where the whole blob+commit path and the token re-fetch succeed
and the contents API always fails (it is never reached on large files). -/
def oracleBlobOk : Oracle :=
  ⟨fun _ => Except.ok (ContentResp.file (some "r9")),
   fun _ => Except.error ⟨some 500, "unused", false⟩,
   fun _ => Except.ok BlobBody.malformed,
   fun _ => Except.ok "b1",
   fun _ => Except.ok "c0",
   fun _ => Except.ok "t0",
   fun _ => Except.ok "t1",
   fun _ => Except.ok "c1",
   fun _ => Except.ok ()⟩

/-- A local database file one byte above the 90 MB threshold. -/
def bigBuf : Bytes := List.replicate (SIZE_WARN_LIMIT + 1) 0

/-! ## Helper lemmas: base64, content identifiers, association lists -/

theorem b64val_b64char : ∀ n, n < 64 → b64val (b64char n) = n := by decide

theorem b64char_ne_pad : ∀ n, n < 64 → ¬(b64char n = '=') := by decide

theorem b64_roundtrip : ∀ bs : Bytes, validBytes bs → b64decode (b64encode bs) = bs
  | [], _ => rfl
  | [a], h => by
      have ha : a < 256 := h a (by simp)
      have h1 := b64val_b64char (a / 4) (by omega)
      have h2 := b64val_b64char (a % 4 * 16) (by omega)
      simp only [b64encode, b64decode]
      simp [h1, h2]
      omega
  | [a, b], h => by
      have ha : a < 256 := h a (by simp)
      have hb : b < 256 := h b (by simp)
      have h1 := b64val_b64char (a / 4) (by omega)
      have h2 := b64val_b64char (a % 4 * 16 + b / 16) (by omega)
      have h3 := b64val_b64char (b % 16 * 4) (by omega)
      have hne := b64char_ne_pad (b % 16 * 4) (by omega)
      simp only [b64encode, b64decode]
      simp [hne, h1, h2, h3]
      constructor <;> omega
  | a :: b :: c :: rest, h => by
      have ha : a < 256 := h a (by simp)
      have hb : b < 256 := h b (by simp)
      have hc : c < 256 := h c (by simp)
      have ih := b64_roundtrip rest (fun x hx => h x (by simp [hx]))
      have h1 := b64val_b64char (a / 4) (by omega)
      have h2 := b64val_b64char (a % 4 * 16 + b / 16) (by omega)
      have h3 := b64val_b64char (b % 16 * 4 + c / 64) (by omega)
      have h4 := b64val_b64char (c % 64) (by omega)
      have hne3 := b64char_ne_pad (b % 16 * 4 + c / 64) (by omega)
      have hne4 := b64char_ne_pad (c % 64) (by omega)
      simp only [b64encode, b64decode]
      simp [hne3, hne4, h1, h2, h3, h4, ih]
      refine ⟨by omega, by omega, by omega⟩

theorem mask_roundtrip : ∀ bs : Bytes, validBytes bs →
    bs.map (fun c => c % 256) = bs := by
  intro bs h
  induction bs with
  | nil => rfl
  | cons a t ih =>
      have ha : a < 256 := h a (by simp)
      simp only [List.map_cons, Nat.mod_eq_of_lt ha, List.cons.injEq, true_and]
      exact ih (fun x hx => h x (by simp [hx]))

theorem unhex_hex : ∀ bs : Bytes, validBytes bs → unhexChars (hexOfBytes bs) = bs
  | [], _ => rfl
  | b :: r, h => by
      have hb : b < 256 := h b (by simp)
      have h1 := b64val_b64char (b / 16) (by omega)
      have h2 := b64val_b64char (b % 16) (by omega)
      simp only [hexOfBytes, unhexChars]
      rw [h1, h2]
      refine List.cons_eq_cons.mpr ⟨by omega, unhex_hex r (fun x hx => h x (by simp [hx]))⟩

theorem shaOf_inj {a b : Bytes} (hav : validBytes a) (hbv : validBytes b)
    (h : shaOf a = shaOf b) : a = b := by
  have hl : hexOfBytes a = hexOfBytes b := congrArg String.data h
  calc a = unhexChars (hexOfBytes a) := (unhex_hex a hav).symm
    _ = unhexChars (hexOfBytes b) := by rw [hl]
    _ = b := unhex_hex b hbv

theorem lookup_mem {α β : Type} [BEq α] [LawfulBEq α]
    (l : List (α × β)) (a : α) (b : β) (h : l.lookup a = some b) : (a, b) ∈ l := by
  induction l with
  | nil => simp [List.lookup] at h
  | cons kv t ih =>
      obtain ⟨k, v⟩ := kv
      by_cases hk : a = k
      · have hbeq : (a == k) = true := beq_iff_eq.mpr hk
        simp only [List.lookup, hbeq] at h
        injection h with h
        simp [hk, h]
      · have hne : (a == k) = false := beq_false_of_ne hk
        simp only [List.lookup, hne] at h
        exact List.mem_cons_of_mem _ (ih h)

theorem lookup_cons_self {α β : Type} [BEq α] [LawfulBEq α]
    (a : α) (b : β) (t : List (α × β)) : ((a, b) :: t).lookup a = some b := by
  simp [List.lookup]

theorem lookup_cons_ne {α β : Type} [BEq α] [LawfulBEq α]
    (a k : α) (b : β) (t : List (α × β)) (h : a ≠ k) :
    ((k, b) :: t).lookup a = t.lookup a := by
  simp [List.lookup, beq_false_of_ne h]

theorem lookup_filter_self {α β : Type} [BEq α] [LawfulBEq α]
    (l : List (α × β)) (x : α) :
    (l.filter (fun p => !(p.1 == x))).lookup x = none := by
  induction l with
  | nil => rfl
  | cons kv t ih =>
      obtain ⟨k, v⟩ := kv
      by_cases hk : k = x
      · have hbeq : (k == x) = true := beq_iff_eq.mpr hk
        simp only [List.filter_cons, hbeq, Bool.not_true, if_neg, Bool.false_eq_true,
          not_false_eq_true, ite_false]
        exact ih
      · have hne : (k == x) = false := beq_false_of_ne hk
        simp only [List.filter_cons, hne, Bool.not_false, ite_true]
        rw [lookup_cons_ne x k v _ (fun hh => hk hh.symm)]
        exact ih

theorem lookup_filter_ne {α β : Type} [BEq α] [LawfulBEq α]
    (l : List (α × β)) (a x : α) (h : a ≠ x) :
    (l.filter (fun p => !(p.1 == x))).lookup a = l.lookup a := by
  induction l with
  | nil => rfl
  | cons kv t ih =>
      obtain ⟨k, v⟩ := kv
      by_cases hk : k = x
      · have hbeq : (k == x) = true := beq_iff_eq.mpr hk
        simp only [List.filter_cons, hbeq, Bool.not_true, Bool.false_eq_true,
          not_false_eq_true, ite_false]
        rw [ih, lookup_cons_ne a k v t (fun hh => h (hh.trans hk))]
      · have hne : (k == x) = false := beq_false_of_ne hk
        simp only [List.filter_cons, hne, Bool.not_false, ite_true]
        by_cases hak : a = k
        · have hbeq2 : (a == k) = true := beq_iff_eq.mpr hak
          simp [List.lookup, hbeq2]
        · rw [lookup_cons_ne a k v _ hak, lookup_cons_ne a k v t hak]
          exact ih

/-! ## Helper lemmas about the repository model -/

theorem fetchBlobBySha_found (r : Repo) (log : List StoreEv) (enc : EncChoice)
    (sha : String) (bytes : Bytes) (hblob : r.blobs.lookup sha = some bytes)
    (hval : validBytes bytes) :
    fetchBlobBySha r log enc sha = (Except.ok bytes, r, log ++ [StoreEv.evBlobGet sha]) := by
  cases enc <;>
    simp [fetchBlobBySha, ghGetBlob, hblob, mask_roundtrip bytes hval,
      b64_roundtrip bytes hval]

theorem ghPutContents_create (r : Repo) (path : String) (bytes : Bytes)
    (hval : validBytes bytes) (hfree : r.files.lookup path = none) :
    ghPutContents r path (b64encode bytes) none =
      Except.ok (shaOf bytes,
        ⟨(path, shaOf bytes) :: r.files.filter (fun p => !(p.1 == path)),
         insertBlob (shaOf bytes) bytes r.blobs⟩) := by
  simp [ghPutContents, hfree, b64_roundtrip bytes hval]

theorem insertBlob_existing (blobs : List (String × Bytes)) (sha : String) (bs : Bytes)
    (h : blobs.lookup sha = some bs) : insertBlob sha bs blobs = blobs := by
  simp [insertBlob, h]

theorem insertBlob_lookup (r : Repo) (bs : Bytes) (hWF : r.WF) (hval : validBytes bs) :
    (insertBlob (shaOf bs) bs r.blobs).lookup (shaOf bs) = some bs := by
  unfold insertBlob
  cases hl : r.blobs.lookup (shaOf bs) with
  | none => simp [lookup_cons_self]
  | some bs0 =>
      obtain ⟨hs, hv⟩ := hWF _ (lookup_mem _ _ _ hl)
      have hbs : bs0 = bs := shaOf_inj hv hval hs.symm
      simp [hl, hbs]

/-! ## Claim C10 -/

/-- C10: if the local database file does not exist at flush time, `syncNow`
returns without error and without contacting the remote — for every oracle
and whether or not the flush is forced — leaving the dirty flag and the last
known version token unchanged. -/
theorem c10_missing_local_skips (o : Oracle) (force : Bool) (s : SyncSt) (n : Net) :
    syncNow o force none s n = (Except.ok (), s, n) := by
  unfold syncNow
  split <;> rfl

/-! ## Claim C9 -/

/-- C9: any number of further `markDataDirty` calls inside one debounce window
(timer initially unset, never firing in between) behave exactly like the
first call alone: the first call sets `dirty`, schedules exactly one debounce
flush and records the timer; every subsequent call changes nothing further. -/
theorem c9_markDirty_coalesces (st : MdState) (k : Nat) (h : st.timerSet = false) :
    markDataDirty^[k + 1] st =
      { dirty := true, timerSet := true, scheduled := st.scheduled + 1 } := by
  induction k with
  | zero =>
      rw [Function.iterate_succ_apply', Function.iterate_zero_apply]
      simp [markDataDirty, h]
  | succ m ih =>
      rw [Function.iterate_succ_apply', ih]
      simp [markDataDirty]

/-- Witness for C9 at a concrete state: three calls in one window coalesce to
a single scheduled flush. -/
theorem c9_markDirty_coalesces_witness :
    (⟨false, false, 0⟩ : MdState).timerSet = false ∧
    markDataDirty^[3] (⟨false, false, 0⟩ : MdState) = ⟨true, true, 1⟩ :=
  ⟨rfl, c9_markDirty_coalesces ⟨false, false, 0⟩ 2 rfl⟩

/-! ## Claim C5 -/

/-- C5: for a stored document (path mapped to the blob id, blob present, and
the banned-folder target path free), `moveToBannedFolder` first fetches the
bytes by content id, then writes them to `banned-pdfs/<docId>/<filename>`
with `<filename>` the last segment of the old path, and only afterwards
deletes the old path — the call log records exactly this order; after the
completed move, fetching by the content id still returns the original bytes
and a fetch of the old logical path reports 404 Not Found. -/
theorem c5_move_semantics (r : Repo) (log : List StoreEv) (enc enc2 : EncChoice)
    (currentPath docId sha : String) (bytes : Bytes)
    (hWF : r.WF)
    (hcur : r.files.lookup currentPath = some sha)
    (hblob : r.blobs.lookup sha = some bytes)
    (hfree : r.files.lookup
      ("banned-pdfs/" ++ docId ++ "/" ++ (currentPath.splitOn "/").getLastD "") = none) :
    ∃ r3 : Repo,
      moveToBannedFolder r log enc currentPath sha docId =
        (Except.ok ("banned-pdfs/" ++ docId ++ "/" ++ (currentPath.splitOn "/").getLastD ""),
         r3,
         log ++ [StoreEv.evBlobGet sha,
                 StoreEv.evPut ("banned-pdfs/" ++ docId ++ "/" ++ (currentPath.splitOn "/").getLastD ""),
                 StoreEv.evDelete currentPath]) ∧
      (fetchBlobBySha r3 [] enc2 sha).1 = Except.ok bytes ∧
      ghGetContentPath r3 currentPath = Except.error { status := some 404, msg := "Not Found" } := by
  obtain ⟨hsha, hval⟩ := hWF _ (lookup_mem _ _ _ hblob)
  have hfetch := fetchBlobBySha_found r log enc sha bytes hblob hval
  set newPath := "banned-pdfs/" ++ docId ++ "/" ++ (currentPath.splitOn "/").getLastD "" with hnp
  have hne : currentPath ≠ newPath := by
    intro he
    rw [he, hfree] at hcur
    cases hcur
  have hput := ghPutContents_create r newPath bytes hval hfree
  have hblob2 : (insertBlob (shaOf bytes) bytes r.blobs) = r.blobs := by
    rw [← hsha] at *
    exact insertBlob_existing r.blobs sha bytes hblob
  have hlook2 :
      ((newPath, shaOf bytes) :: r.files.filter (fun p => !(p.1 == newPath))).lookup currentPath
        = some sha := by
    rw [lookup_cons_ne _ _ _ _ hne, lookup_filter_ne _ _ _ hne, hcur]
  refine ⟨⟨((newPath, shaOf bytes) :: r.files.filter (fun p => !(p.1 == newPath))).filter
            (fun p => !(p.1 == currentPath)), r.blobs⟩, ?_, ?_, ?_⟩
  · simp only [moveToBannedFolder, hfetch, ← hnp, hput, hblob2, ghDeleteFile, hlook2,
      if_pos rfl, List.append_assoc]
    rfl
  · have hfin := fetchBlobBySha_found
      ⟨((newPath, shaOf bytes) :: r.files.filter (fun p => !(p.1 == newPath))).filter
          (fun p => !(p.1 == currentPath)), r.blobs⟩ [] enc2 sha bytes hblob hval
    rw [hfin]
  · simp [ghGetContentPath, lookup_filter_self]

/-- Witness for C5: a concrete one-document repository, moved with each
remote encoding fixed to the raw-buffer form. -/
theorem c5_move_semantics_witness :
    ∃ r3 : Repo,
      moveToBannedFolder ⟨[("pdfs/d1/a.pdf", shaOf [7, 8])], [(shaOf [7, 8], [7, 8])]⟩
          [] EncChoice.raw "pdfs/d1/a.pdf" (shaOf [7, 8]) "d1" =
        (Except.ok ("banned-pdfs/" ++ "d1" ++ "/" ++ (("pdfs/d1/a.pdf").splitOn "/").getLastD ""),
         r3,
         [] ++ [StoreEv.evBlobGet (shaOf [7, 8]),
                StoreEv.evPut ("banned-pdfs/" ++ "d1" ++ "/" ++ (("pdfs/d1/a.pdf").splitOn "/").getLastD ""),
                StoreEv.evDelete "pdfs/d1/a.pdf"]) ∧
      (fetchBlobBySha r3 [] EncChoice.raw (shaOf [7, 8])).1 = Except.ok [7, 8] ∧
      ghGetContentPath r3 "pdfs/d1/a.pdf" = Except.error { status := some 404, msg := "Not Found" } :=
  c5_move_semantics ⟨[("pdfs/d1/a.pdf", shaOf [7, 8])], [(shaOf [7, 8], [7, 8])]⟩
    [] EncChoice.raw EncChoice.raw "pdfs/d1/a.pdf" "d1" (shaOf [7, 8]) [7, 8]
    (by intro p hp; simp at hp; rw [hp]; exact ⟨rfl, by decide⟩)
    (by rfl) (by rfl) (by rfl)

/-! ## Claim C6 -/

/-- C6: uploading bytes B with `uploadPdf` and reading them back with
`fetchBlobBySha` at the returned content id yields exactly B, whichever of
the accepted response encodings (raw buffer, binary string, base64-wrapped
object) the remote uses for the read. -/
theorem c6_upload_fetch_roundtrip (r : Repo) (log : List StoreEv) (enc : EncChoice)
    (buffer : Bytes) (originalName id : String)
    (hWF : r.WF) (hval : validBytes buffer)
    (hfree : r.files.lookup (uploadPath originalName id) = none) :
    ∃ r1 : Repo,
      uploadPdf r log buffer originalName id =
        (Except.ok (uploadPath originalName id, shaOf buffer), r1,
         log ++ [StoreEv.evPut (uploadPath originalName id)]) ∧
      (fetchBlobBySha r1 [] enc (shaOf buffer)).1 = Except.ok buffer := by
  have hput := ghPutContents_create r (uploadPath originalName id) buffer hval hfree
  refine ⟨⟨(uploadPath originalName id, shaOf buffer) ::
            r.files.filter (fun p => !(p.1 == uploadPath originalName id)),
           insertBlob (shaOf buffer) buffer r.blobs⟩, ?_, ?_⟩
  · simp only [uploadPdf, hput]
  · have hlk : (insertBlob (shaOf buffer) buffer r.blobs).lookup (shaOf buffer)
        = some buffer := insertBlob_lookup r buffer hWF hval
    have hfin := fetchBlobBySha_found
      ⟨(uploadPath originalName id, shaOf buffer) ::
          r.files.filter (fun p => !(p.1 == uploadPath originalName id)),
        insertBlob (shaOf buffer) buffer r.blobs⟩ [] enc (shaOf buffer) buffer hlk hval
    rw [hfin]

/-- Witness for C6: concrete three-byte upload read back under the
base64-wrapped encoding. -/
theorem c6_upload_fetch_roundtrip_witness :
    ∃ r1 : Repo,
      uploadPdf ⟨[], []⟩ [] [1, 2, 3] "doc.pdf" "d1" =
        (Except.ok (uploadPath "doc.pdf" "d1", shaOf [1, 2, 3]), r1,
         [] ++ [StoreEv.evPut (uploadPath "doc.pdf" "d1")]) ∧
      (fetchBlobBySha r1 [] EncChoice.b64obj (shaOf [1, 2, 3])).1 = Except.ok [1, 2, 3] :=
  c6_upload_fetch_roundtrip ⟨[], []⟩ [] EncChoice.b64obj [1, 2, 3] "doc.pdf" "d1"
    (by intro p hp; cases hp) (by decide) (by rfl)

/-! ## Claim C7 -/

/-- C7 as stated is false on the code: `uploadPdf` never supplies a version
token, so the second identical call targets an existing path and the
contents API rejects it with 422 rather than succeeding idempotently.  This
concrete run shows the first call succeeding and the second failing. -/
theorem c7_counterexample :
    (uploadPdf ⟨[], []⟩ [] [1, 2, 3] "doc.pdf" "d1").1 =
      Except.ok ("pdfs/d1/doc.pdf", shaOf [1, 2, 3]) ∧
    (uploadPdf (uploadPdf ⟨[], []⟩ [] [1, 2, 3] "doc.pdf" "d1").2.1
        [] [1, 2, 3] "doc.pdf" "d1").1 =
      Except.error { status := some 422, msg := "Invalid request. " ++ shaPat ++ "." } := by
  constructor <;> rfl

/-- C7 amended: the content id of a successful `uploadPdf` is determined by
the bytes alone, so any two successful uploads of identical bytes (which
must use distinct logical keys) return the same content id; but a second
call with the same bytes, name and key is rejected by the remote with a 422
whose message is exactly the missing-version-token complaint the sync module
recognizes — it is an error, not an idempotent success. -/
theorem c7_second_upload_conflicts (r : Repo) (log log2 log3 : List StoreEv)
    (buffer : Bytes) (originalName id : String)
    (hWF : r.WF) (hval : validBytes buffer)
    (hfree : r.files.lookup (uploadPath originalName id) = none) :
    ∃ r1 : Repo,
      (uploadPdf r log buffer originalName id).1 =
        Except.ok (uploadPath originalName id, shaOf buffer) ∧
      (uploadPdf r log buffer originalName id).2.1 = r1 ∧
      (uploadPdf r1 log2 buffer originalName id).1 =
        Except.error { status := some 422, msg := "Invalid request. " ++ shaPat ++ "." } ∧
      msgHasShaNotSupplied ("Invalid request. " ++ shaPat ++ ".") = true ∧
      (∀ id2, r1.files.lookup (uploadPath originalName id2) = none →
        (uploadPdf r1 log3 buffer originalName id2).1 =
          Except.ok (uploadPath originalName id2, shaOf buffer)) := by
  have hput := ghPutContents_create r (uploadPath originalName id) buffer hval hfree
  refine ⟨⟨(uploadPath originalName id, shaOf buffer) ::
            r.files.filter (fun p => !(p.1 == uploadPath originalName id)),
           insertBlob (shaOf buffer) buffer r.blobs⟩, ?_, ?_, ?_, ?_, ?_⟩
  · simp only [uploadPdf, hput]
  · simp only [uploadPdf, hput]
  · have hocc : ((uploadPath originalName id, shaOf buffer) ::
        r.files.filter (fun p => !(p.1 == uploadPath originalName id))).lookup
          (uploadPath originalName id) = some (shaOf buffer) := lookup_cons_self _ _ _
    simp only [uploadPdf, ghPutContents, hocc]
  · decide
  · intro id2 hfree2
    have hput2 := ghPutContents_create
      ⟨(uploadPath originalName id, shaOf buffer) ::
          r.files.filter (fun p => !(p.1 == uploadPath originalName id)),
        insertBlob (shaOf buffer) buffer r.blobs⟩
      (uploadPath originalName id2) buffer hval hfree2
    simp only [uploadPdf, hput2]

/-- Witness for the amended C7 at a concrete repository. -/
theorem c7_second_upload_conflicts_witness :
    ∃ r1 : Repo,
      (uploadPdf ⟨[], []⟩ [] [9] "doc.pdf" "d1").1 =
        Except.ok (uploadPath "doc.pdf" "d1", shaOf [9]) ∧
      (uploadPdf ⟨[], []⟩ [] [9] "doc.pdf" "d1").2.1 = r1 ∧
      (uploadPdf r1 [] [9] "doc.pdf" "d1").1 =
        Except.error { status := some 422, msg := "Invalid request. " ++ shaPat ++ "." } ∧
      msgHasShaNotSupplied ("Invalid request. " ++ shaPat ++ ".") = true ∧
      (∀ id2, r1.files.lookup (uploadPath "doc.pdf" id2) = none →
        (uploadPdf r1 [] [9] "doc.pdf" id2).1 =
          Except.ok (uploadPath "doc.pdf" id2, shaOf [9])) :=
  c7_second_upload_conflicts ⟨[], []⟩ [] [] [] [9] "doc.pdf" "d1"
    (by intro p hp; cases hp) (by decide) (by rfl)

/-! ## Log-extension lemmas: every embedded function only appends calls -/

theorem getRemoteSha_log (o : Oracle) (n : Net) :
    ∃ t, (getRemoteSha o n).2.log = n.log ++ t := by
  refine ⟨[CallEv.getContent], ?_⟩
  unfold getRemoteSha callGetContent
  cases o.getContent n.ctr.getContent with
  | ok r => cases r <;> rfl
  | error e =>
      dsimp only
      split <;> rfl

theorem putFileContents_log (o : Oracle) (c m : String) (sha : Option String) (n : Net) :
    ∃ t, (putFileContents o c m sha n).2.log = n.log ++ t := by
  unfold putFileContents callPutContents
  cases hp : o.putContents n.ctr.putContents with
  | ok d => exact ⟨[CallEv.putContents sha], rfl⟩
  | error e =>
      dsimp only
      split
      · rcases hg : getRemoteSha o
            ⟨{ n.ctr with putContents := n.ctr.putContents + 1 }, n.log ++ [CallEv.putContents sha]⟩
          with ⟨res, n2⟩
        obtain ⟨t1, ht1⟩ := getRemoteSha_log o
          ⟨{ n.ctr with putContents := n.ctr.putContents + 1 }, n.log ++ [CallEv.putContents sha]⟩
        rw [hg] at ht1
        dsimp only at ht1
        rcases res with g | rs
        · exact ⟨[CallEv.putContents sha] ++ t1, by simp [ht1]⟩
        · rcases rs with _ | r
          · exact ⟨[CallEv.putContents sha] ++ t1, by simp [ht1]⟩
          · refine ⟨[CallEv.putContents sha] ++ t1 ++ [CallEv.putContents (some r)], ?_⟩
            rcases hq : o.putContents n2.ctr.putContents with e2 | d2 <;>
              simp [hq, ht1]
      · exact ⟨[CallEv.putContents sha], rfl⟩

theorem commitRawBlob_log (o : Oracle) (buf : Bytes) (m : String) (n : Net) :
    ∃ t, (commitRawBlob o buf m n).2.log = n.log ++ [CallEv.createBlob] ++ t := by
  unfold commitRawBlob callCreateBlob callGetRef callGetCommit callCreateTree
    callCreateCommit callUpdateRef
  cases o.createBlob n.ctr.createBlob with
  | error e => exact ⟨[], by simp⟩
  | ok bsha =>
      dsimp only
      cases o.getRef (n.ctr.getRef) with
      | error e => exact ⟨[CallEv.getRef], by simp⟩
      | ok c0 =>
          dsimp only
          cases o.getCommit (n.ctr.getCommit) with
          | error e => exact ⟨[CallEv.getRef, CallEv.getCommit], by simp⟩
          | ok t0 =>
              dsimp only
              cases o.createTree (n.ctr.createTree) with
              | error e => exact ⟨[CallEv.getRef, CallEv.getCommit, CallEv.createTree], by simp⟩
              | ok t1 =>
                  dsimp only
                  cases o.createCommit (n.ctr.createCommit) with
                  | error e =>
                      exact ⟨[CallEv.getRef, CallEv.getCommit, CallEv.createTree,
                        CallEv.createCommit], by simp⟩
                  | ok c1 =>
                      dsimp only
                      cases o.updateRef (n.ctr.updateRef) with
                      | error e =>
                          exact ⟨[CallEv.getRef, CallEv.getCommit, CallEv.createTree,
                            CallEv.createCommit, CallEv.updateRef], by simp⟩
                      | ok _ =>
                          exact ⟨[CallEv.getRef, CallEv.getCommit, CallEv.createTree,
                            CallEv.createCommit, CallEv.updateRef], by simp⟩

theorem syncFinalRetry_log (o : Oracle) (buf : Bytes) (s : SyncSt) (n : Net) :
    ∃ t, (syncFinalRetry o buf s n).2.2.log = n.log ++ t := by
  unfold syncFinalRetry
  rcases hg : getRemoteSha o n with ⟨res, n1⟩
  obtain ⟨t1, ht1⟩ := getRemoteSha_log o n
  rw [hg] at ht1
  dsimp only at ht1
  rcases res with g | rs
  · exact ⟨t1, by simp [hg, ht1]⟩
  · rcases rs with _ | r
    · rcases hp : putFileContents o (String.mk (b64encode buf)) baseMessage
          s.lastKnownSha n1 with ⟨pres, n2⟩
      obtain ⟨t2, ht2⟩ := putFileContents_log o (String.mk (b64encode buf)) baseMessage
        s.lastKnownSha n1
      rw [hp] at ht2
      dsimp only at ht2
      rw [ht1] at ht2
      rcases pres with fe | d
      · exact ⟨t1 ++ t2, by simp [hg, hp, ht2]⟩
      · exact ⟨t1 ++ t2, by simp [hg, hp, ht2]⟩
    · rcases hp : putFileContents o (String.mk (b64encode buf)) baseMessage
          (some r) n1 with ⟨pres, n2⟩
      obtain ⟨t2, ht2⟩ := putFileContents_log o (String.mk (b64encode buf)) baseMessage
        (some r) n1
      rw [hp] at ht2
      dsimp only at ht2
      rw [ht1] at ht2
      rcases pres with fe | d
      · exact ⟨t1 ++ t2, by simp [hg, hp, ht2]⟩
      · exact ⟨t1 ++ t2, by simp [hg, hp, ht2]⟩

theorem syncFallback_log (o : Oracle) (buf : Bytes) (s : SyncSt) (n : Net) :
    ∃ t, (syncFallback o buf s n).2.2.log = n.log ++ [CallEv.createBlob] ++ t := by
  unfold syncFallback
  rcases hc : commitRawBlob o buf baseMessage n with ⟨cres, n1⟩
  obtain ⟨t1, ht1⟩ := commitRawBlob_log o buf baseMessage n
  rw [hc] at ht1
  dsimp only at ht1
  rcases cres with e | pr
  · obtain ⟨t2, ht2⟩ := syncFinalRetry_log o buf s n1
    rw [ht1] at ht2
    exact ⟨t1 ++ t2, by simp [hc, ht2]⟩
  · rcases hg : getRemoteSha o n1 with ⟨gres, n2⟩
    obtain ⟨t2, ht2⟩ := getRemoteSha_log o n1
    rw [hg] at ht2
    dsimp only at ht2
    rw [ht1] at ht2
    rcases gres with g | sh
    · obtain ⟨t3, ht3⟩ := syncFinalRetry_log o buf s n2
      rw [ht2] at ht3
      exact ⟨t1 ++ t2 ++ t3, by simp [hc, hg, ht3]⟩
    · exact ⟨t1 ++ t2, by simp [hc, hg, ht2]⟩

/-! ## Claim C8 -/

/-- C8: when the hydration fetch of the remote database object fails with a
transport error carrying an HTTP status other than 404 (NotFound),
`initDataSync` propagates exactly that error, leaves the local file and the
sync state untouched, and performs no remote call beyond the failed fetch
(in particular it does not bootstrap-create a local or remote file). -/
theorem c8_hydrate_transport_error_fatal (o : Oracle) (localFile : Option Bytes)
    (s : SyncSt) (n : Net) (e : GhErr) (st : Nat)
    (hfe : (fetchRemoteDbBuffer o n).1 = Except.error e)
    (hst : e.status = some st) (h404 : st ≠ 404) (h0 : st ≠ 0) :
    initDataSync o localFile s n =
      (Except.error e, localFile, s, (fetchRemoteDbBuffer o n).2) := by
  have hpair : fetchRemoteDbBuffer o n = (Except.error e, (fetchRemoteDbBuffer o n).2) := by
    rw [← hfe]
  have hcond : (statusTruthy e.status && !(e.status = some 404 : Bool)) = true := by
    rw [hst]
    simp [statusTruthy, h0, h404]
  unfold initDataSync
  rw [hpair]
  dsimp only
  rw [hcond]
  rfl

/-- Witness for C8: a remote that answers the metadata fetch with HTTP 500. -/
theorem c8_hydrate_transport_error_fatal_witness :
    initDataSync oracleDown (some [1]) ⟨none, false⟩ net0 =
      (Except.error ⟨some 500, "boom", false⟩, some [1], ⟨none, false⟩,
       (fetchRemoteDbBuffer oracleDown net0).2) :=
  c8_hydrate_transport_error_fatal oracleDown (some [1]) ⟨none, false⟩ net0
    ⟨some 500, "boom", false⟩ 500 (by rfl) rfl (by decide) (by decide)

/-! ## Claim C2 -/

/-- C2 amended: for a local file strictly above the size threshold, a flush
that proceeds routes the write through the blob+tree+commit path first — the
first remote call is the blob create, never a contents-API write — and when
that multi-step path and the following token re-fetch succeed, no single-call
contents-API write happens at all (the contents API is reached for a large
file only as a fallback after the multi-step path fails). -/
theorem c2_large_file_routes_blob (o : Oracle) (buf : Bytes) (s : SyncSt) (force : Bool)
    (hrun : (!s.dirty && !force) = false)
    (hbig : SIZE_WARN_LIMIT < buf.length) :
    (syncNow o force (some buf) s net0).2.2.log.take 1 = [CallEv.createBlob] ∧
    (∀ (bs cs ts tr cm : String) (sh : Option String),
      o.createBlob 0 = Except.ok bs → o.getRef 0 = Except.ok cs →
      o.getCommit 0 = Except.ok ts → o.createTree 0 = Except.ok tr →
      o.createCommit 0 = Except.ok cm → o.updateRef 0 = Except.ok () →
      o.getContent 0 = Except.ok (ContentResp.file sh) →
      syncNow o force (some buf) s net0 =
        (Except.ok (), ⟨sh, false⟩,
         ⟨{ getContent := 1, createBlob := 1, getRef := 1, getCommit := 1,
            createTree := 1, createCommit := 1, updateRef := 1 },
          [CallEv.createBlob, CallEv.getRef, CallEv.getCommit, CallEv.createTree,
           CallEv.createCommit, CallEv.updateRef, CallEv.getContent]⟩) ∧
      (∀ x, CallEv.putContents x ∉ (syncNow o force (some buf) s net0).2.2.log)) := by
  have hsz : ¬(buf.length ≤ SIZE_WARN_LIMIT) := by omega
  have hred : syncNow o force (some buf) s net0 = syncFallback o buf s net0 := by
    simp [syncNow, hrun, hsz]
  constructor
  · obtain ⟨t, ht⟩ := syncFallback_log o buf s net0
    rw [hred, ht]
    simp [net0]
  · intro bs cs ts tr cm sh h1 h2 h3 h4 h5 h6 h7
    have heq : syncNow o force (some buf) s net0 =
        (Except.ok (), ⟨sh, false⟩,
         ⟨{ getContent := 1, createBlob := 1, getRef := 1, getCommit := 1,
            createTree := 1, createCommit := 1, updateRef := 1 },
          [CallEv.createBlob, CallEv.getRef, CallEv.getCommit, CallEv.createTree,
           CallEv.createCommit, CallEv.updateRef, CallEv.getContent]⟩) := by
      rw [hred]
      simp [syncFallback, commitRawBlob, getRemoteSha, callCreateBlob, callGetRef,
        callGetCommit, callCreateTree, callCreateCommit, callUpdateRef, callGetContent,
        net0, h1, h2, h3, h4, h5, h6, h7]
    refine ⟨heq, ?_⟩
    intro x
    rw [heq]
    simp

/-- C2 as stated ("never via the single-call contents-API path") is false on
the code: when the blob+tree+commit path fails for a file above the
threshold, `syncNow` falls back to a contents-API write.  Concrete run with a
90 MB + 1 byte file and a failing blob create: the log ends with a
contents-API write, which even succeeds. -/
theorem c2_counterexample :
    SIZE_WARN_LIMIT < bigBuf.length ∧
    syncNow oracleBlobDown false (some bigBuf) ⟨none, true⟩ net0 =
      (Except.ok (), ⟨some "s2", false⟩,
       ⟨{ getContent := 1, putContents := 1, createBlob := 1 },
        [CallEv.createBlob, CallEv.getContent, CallEv.putContents (some "r1")]⟩) := by
  have hlen : bigBuf.length = SIZE_WARN_LIMIT + 1 := by
    unfold bigBuf
    exact List.length_replicate _ _
  have hsz : ¬(bigBuf.length ≤ SIZE_WARN_LIMIT) := by omega
  refine ⟨by omega, ?_⟩
  simp [syncNow, syncFallback, syncFinalRetry, commitRawBlob, getRemoteSha,
    putFileContents, callCreateBlob, callGetContent, callPutContents, net0,
    oracleBlobDown, hsz]

/-- Witness for the amended C2: the same oversized file against a remote
whose blob+commit path succeeds — only the multi-step calls appear. -/
theorem c2_large_file_routes_blob_witness :
    (syncNow oracleBlobOk false (some bigBuf) ⟨none, true⟩ net0).2.2.log.take 1 =
      [CallEv.createBlob] ∧
    syncNow oracleBlobOk false (some bigBuf) ⟨none, true⟩ net0 =
      (Except.ok (), ⟨some "r9", false⟩,
       ⟨{ getContent := 1, createBlob := 1, getRef := 1, getCommit := 1,
          createTree := 1, createCommit := 1, updateRef := 1 },
        [CallEv.createBlob, CallEv.getRef, CallEv.getCommit, CallEv.createTree,
         CallEv.createCommit, CallEv.updateRef, CallEv.getContent]⟩) := by
  have h := c2_large_file_routes_blob oracleBlobOk bigBuf ⟨none, true⟩ false rfl
    (by unfold bigBuf; rw [List.length_replicate]; omega)
  exact ⟨h.1, (h.2 "b1" "c0" "t0" "t1" "c1" (some "r9") rfl rfl rfl rfl rfl rfl rfl).1⟩

/-! ## Claim C1 -/

/-- The payload and commit message of `putFileContents` travel to the remote
but do not influence the embedded control flow, counters or log. -/
theorem putFileContents_args_irrel (o : Oracle) (c c2 m m2 : String)
    (sha : Option String) (n : Net) :
    putFileContents o c m sha n = putFileContents o c2 m2 sha n := rfl

/-- C1 amended: when the contents-API write is rejected with a 422 whose
message contains the missing-token complaint, `putFileContents` re-fetches
the remote token and retries the same write exactly once, surfacing the
retry's error if it fails again; but the flush (`syncNow`) does not then
surface a hard failure — its very next remote call after the failed retry is
the blob create of the blob+tree+commit fallback (and a final contents-API
attempt follows if that fails too). -/
theorem c1_conflict_retry_then_fallback (o : Oracle) (c m : String)
    (sha0 : Option String) (buf : Bytes) (dirt : Bool) (e1 e2 : GhErr) (rs : String)
    (hsmall : buf.length ≤ SIZE_WARN_LIMIT)
    (h1 : o.putContents 0 = Except.error e1)
    (h2 : e1.status = some 422)
    (h3 : msgHasShaNotSupplied e1.msg = true)
    (h4 : o.getContent 0 = Except.ok (ContentResp.file (some rs)))
    (h5 : o.putContents 1 = Except.error e2) :
    putFileContents o c m sha0 net0 =
      (Except.error e2,
       ⟨{ getContent := 1, putContents := 2 },
        [CallEv.putContents sha0, CallEv.getContent, CallEv.putContents (some rs)]⟩) ∧
    (syncNow o true (some buf) ⟨sha0, dirt⟩ net0).2.2.log.take 4 =
      [CallEv.putContents sha0, CallEv.getContent, CallEv.putContents (some rs),
       CallEv.createBlob] := by
  have hput : putFileContents o c m sha0 net0 =
      (Except.error e2,
       ⟨{ getContent := 1, putContents := 2 },
        [CallEv.putContents sha0, CallEv.getContent, CallEv.putContents (some rs)]⟩) := by
    simp [putFileContents, getRemoteSha, callPutContents, callGetContent, net0,
      h1, h2, h3, h4, h5]
  refine ⟨hput, ?_⟩
  have hput2 : putFileContents o (String.mk (b64encode buf)) baseMessage sha0 net0 =
      (Except.error e2,
       ⟨{ getContent := 1, putContents := 2 },
        [CallEv.putContents sha0, CallEv.getContent, CallEv.putContents (some rs)]⟩) := by
    rw [putFileContents_args_irrel o (String.mk (b64encode buf)) c baseMessage m]
    exact hput
  have hsync : syncNow o true (some buf) ⟨sha0, dirt⟩ net0 =
      syncFallback o buf ⟨sha0, dirt⟩
        ⟨{ getContent := 1, putContents := 2 },
         [CallEv.putContents sha0, CallEv.getContent, CallEv.putContents (some rs)]⟩ := by
    simp [syncNow, hsmall, hput2]
  obtain ⟨t, ht⟩ := syncFallback_log o buf ⟨sha0, dirt⟩
    ⟨{ getContent := 1, putContents := 2 },
     [CallEv.putContents sha0, CallEv.getContent, CallEv.putContents (some rs)]⟩
  rw [hsync, ht]
  simp

/-- C1 as stated is false on the code: with a remote that rejects both the
initial write and the internal retry with the stale/missing-token 422, the
flush does not surface a hard failure and does not stop retrying — it falls
through to the blob+tree+commit path, performs it, and returns success.  The
final log shows the two conflicted contents-API writes followed by the whole
multi-step write. -/
theorem c1_counterexample :
    oracleConflict.putContents 0 =
      Except.error ⟨some 422, "Invalid request. " ++ shaPat ++ ".", false⟩ ∧
    oracleConflict.putContents 1 =
      Except.error ⟨some 422, "Invalid request. " ++ shaPat ++ ".", false⟩ ∧
    msgHasShaNotSupplied ("Invalid request. " ++ shaPat ++ ".") = true ∧
    (syncNow oracleConflict true (some [1]) ⟨some "s0", true⟩ net0).1 = Except.ok () ∧
    (syncNow oracleConflict true (some [1]) ⟨some "s0", true⟩ net0).2.2.log =
      [CallEv.putContents (some "s0"), CallEv.getContent, CallEv.putContents (some "r1"),
       CallEv.createBlob, CallEv.getRef, CallEv.getCommit, CallEv.createTree,
       CallEv.createCommit, CallEv.updateRef, CallEv.getContent] := by
  exact ⟨rfl, rfl, by decide, rfl, rfl⟩

/-- Witness for the amended C1 at the concrete conflicting oracle. -/
theorem c1_conflict_retry_then_fallback_witness :
    putFileContents oracleConflict "c64" "msg" (some "s0") net0 =
      (Except.error ⟨some 422, "Invalid request. " ++ shaPat ++ ".", false⟩,
       ⟨{ getContent := 1, putContents := 2 },
        [CallEv.putContents (some "s0"), CallEv.getContent, CallEv.putContents (some "r1")]⟩) ∧
    (syncNow oracleConflict true (some [1]) ⟨some "s0", true⟩ net0).2.2.log.take 4 =
      [CallEv.putContents (some "s0"), CallEv.getContent, CallEv.putContents (some "r1"),
       CallEv.createBlob] :=
  c1_conflict_retry_then_fallback oracleConflict "c64" "msg" (some "s0") [1] true
    ⟨some 422, "Invalid request. " ++ shaPat ++ ".", false⟩
    ⟨some 422, "Invalid request. " ++ shaPat ++ ".", false⟩ "r1"
    (by decide) rfl rfl (by decide) rfl rfl

/-! ## Claim C3 -/

theorem syncFinalRetry_dirty (o : Oracle) (buf : Bytes) (s : SyncSt) (n : Net) :
    ((syncFinalRetry o buf s n).1 = Except.ok () ∧
      (syncFinalRetry o buf s n).2.1.dirty = false) ∨
    (∃ e, (syncFinalRetry o buf s n).1 = Except.error e ∧
      (syncFinalRetry o buf s n).2.1 = s) := by
  unfold syncFinalRetry
  rcases hg : getRemoteSha o n with ⟨res, n1⟩
  rcases res with g | rs
  · exact Or.inr ⟨finalErrTransform g, by simp [hg], by simp [hg]⟩
  · rcases rs with _ | r
    · rcases hp : putFileContents o (String.mk (b64encode buf)) baseMessage
          s.lastKnownSha n1 with ⟨pres, n2⟩
      rcases pres with fe | d
      · exact Or.inr ⟨finalErrTransform fe, by simp [hg, hp], by simp [hg, hp]⟩
      · exact Or.inl ⟨by simp [hg, hp], by simp [hg, hp]⟩
    · rcases hp : putFileContents o (String.mk (b64encode buf)) baseMessage
          (some r) n1 with ⟨pres, n2⟩
      rcases pres with fe | d
      · exact Or.inr ⟨finalErrTransform fe, by simp [hg, hp], by simp [hg, hp]⟩
      · exact Or.inl ⟨by simp [hg, hp], by simp [hg, hp]⟩

theorem syncFallback_dirty (o : Oracle) (buf : Bytes) (s : SyncSt) (n : Net) :
    ((syncFallback o buf s n).1 = Except.ok () ∧
      (syncFallback o buf s n).2.1.dirty = false) ∨
    (∃ e, (syncFallback o buf s n).1 = Except.error e ∧
      (syncFallback o buf s n).2.1 = s) := by
  unfold syncFallback
  rcases hc : commitRawBlob o buf baseMessage n with ⟨cres, n1⟩
  rcases cres with e | pr
  · have h := syncFinalRetry_dirty o buf s n1
    simpa [hc] using h
  · rcases hg : getRemoteSha o n1 with ⟨gres, n2⟩
    rcases gres with g | sh
    · have h := syncFinalRetry_dirty o buf s n2
      simpa [hc, hg] using h
    · exact Or.inl ⟨by simp [hc, hg], by simp [hc, hg]⟩

theorem syncNow_dirty_cases (o : Oracle) (force : Bool) (file : Option Bytes)
    (s : SyncSt) (n : Net) :
    ((syncNow o force file s n).1 = Except.ok () ∧
      ((syncNow o force file s n).2.1.dirty = false ∨
       (syncNow o force file s n).2.1 = s)) ∨
    (∃ e, (syncNow o force file s n).1 = Except.error e ∧
      (syncNow o force file s n).2.1.dirty = s.dirty) := by
  unfold syncNow
  cases hgd : (!s.dirty && !force) with
  | true => exact Or.inl ⟨by simp, Or.inr (by simp)⟩
  | false =>
      rcases file with _ | buf
      · exact Or.inl ⟨by simp, Or.inr (by simp)⟩
      · by_cases hsz : buf.length ≤ SIZE_WARN_LIMIT
        · cases hrf : (s.lastKnownSha.isNone && !force) with
          | true =>
              rcases hg : getRemoteSha o n with ⟨gres, n1⟩
              rcases gres with g | sh
              · exact Or.inr ⟨g, by simp [hsz, hrf, hg], by simp [hsz, hrf, hg]⟩
              · rcases hp : putFileContents o (String.mk (b64encode buf)) baseMessage
                    sh n1 with ⟨pres, n2⟩
                rcases pres with fe | d
                · rcases syncFallback_dirty o buf ⟨sh, s.dirty⟩ n2 with ⟨hok, hd⟩ | ⟨e, he, hs⟩
                  · exact Or.inl ⟨by simp [hsz, hrf, hg, hp, hok],
                      Or.inl (by simp [hsz, hrf, hg, hp, hd])⟩
                  · refine Or.inr ⟨e, by simp [hsz, hrf, hg, hp, he], ?_⟩
                    have : (⟨sh, s.dirty⟩ : SyncSt).dirty = s.dirty := rfl
                    simp [hsz, hrf, hg, hp, hs]
                · exact Or.inl ⟨by simp [hsz, hrf, hg, hp],
                    Or.inl (by simp [hsz, hrf, hg, hp])⟩
          | false =>
              rcases hp : putFileContents o (String.mk (b64encode buf)) baseMessage
                  s.lastKnownSha n with ⟨pres, n2⟩
              rcases pres with fe | d
              · rcases syncFallback_dirty o buf ⟨s.lastKnownSha, s.dirty⟩ n2 with
                  ⟨hok, hd⟩ | ⟨e, he, hs⟩
                · exact Or.inl ⟨by simp [hsz, hrf, hp, hok],
                    Or.inl (by simp [hsz, hrf, hp, hd])⟩
                · refine Or.inr ⟨e, by simp [hsz, hrf, hp, he], ?_⟩
                  simp [hsz, hrf, hp, hs]
              · exact Or.inl ⟨by simp [hsz, hrf, hp],
                  Or.inl (by simp [hsz, hrf, hp])⟩
        · rcases syncFallback_dirty o buf s n with ⟨hok, hd⟩ | ⟨e, he, hs⟩
          · exact Or.inl ⟨by simp [hsz, hok], Or.inl (by simp [hsz, hd])⟩
          · exact Or.inr ⟨e, by simp [hsz, he], by simp [hsz, hs]⟩

/-- C3: whenever `syncNow` terminates with an error — version conflicts on
both attempts, transport errors, any failure path — the dirty flag is left
exactly as it was (a dirty file stays dirty for the next periodic flush);
and whenever a flush turns the dirty flag off, the flush returned success,
so `dirty = false` is reachable only through a successful remote write. -/
theorem c3_error_leaves_dirty (o : Oracle) (force : Bool) (file : Option Bytes)
    (s : SyncSt) (n : Net) :
    (∀ e, (syncNow o force file s n).1 = Except.error e →
      (syncNow o force file s n).2.1.dirty = s.dirty) ∧
    ((syncNow o force file s n).2.1.dirty = false →
      s.dirty = false ∨ (syncNow o force file s n).1 = Except.ok ()) := by
  rcases syncNow_dirty_cases o force file s n with ⟨hok, hrest⟩ | ⟨e, he, hd⟩
  · constructor
    · intro e' he'
      rw [hok] at he'
      cases he'
    · intro _
      exact Or.inr hok
  · constructor
    · intro e' he'
      exact hd
    · intro hfalse
      rw [hd] at hfalse
      exact Or.inl hfalse

/-- Witness for C3: a fully unavailable remote; the flush errors out and the
file stays dirty. -/
theorem c3_error_leaves_dirty_witness :
    (syncNow oracleDown false (some [1]) ⟨some "s0", true⟩ net0).1 =
      Except.error ⟨some 500, "boom", false⟩ ∧
    (syncNow oracleDown false (some [1]) ⟨some "s0", true⟩ net0).2.1.dirty = true :=
  ⟨rfl, (c3_error_leaves_dirty oracleDown false (some [1]) ⟨some "s0", true⟩ net0).1
      ⟨some 500, "boom", false⟩ rfl⟩

/-! ## Claim C4 -/

/-- C4 fails on the code (a lost-update bug): run the interleaving machine on
the schedule «mutate to B and markDirty; debounce timer fires and the flush
snapshots B; mutate to C and markDirty during the in-flight write (this
schedules a second debounce flush); the in-flight write completes and the
continuation sets `dirty = false`, clobbering the mid-flight flag; the second
debounce timer fires».  The final state has the remote at the stale content
B, the local file at C, `dirty = false`, no pending timer and no in-flight
write — so no later flush is ever issued for C and the mid-flight
`markDataDirty` is lost, contradicting the claim. -/
theorem c4_midflight_markDirty_lost :
    dbRun ⟨⟨false, false, 0⟩, [0], some [0], none⟩
        [DbEv.appMutate [1], DbEv.flushTimerFire, DbEv.appMutate [2],
         DbEv.flushWriteOk, DbEv.flushTimerFire] =
      ⟨⟨false, false, 2⟩, [2], some [1], none⟩ := by
  rfl
